import Mathlib

/-!
Shallow embedding of the shared-memory transport protocol of PTXEditor
(`src/ipc/shm_protocol.py`) together with the channel-switch coordination in
`src/ui/viewport.py`, and proofs of the specified properties.

Modelling conventions:
* A mapped region is a `List Nat` of bytes; multi-byte fields are read
  little-endian, as `struct.unpack_from` with format `<...` does.
* The producer mutates the region concurrently.  Fields that a call reads
  once (header words such as `active_index`) are taken from the byte snapshot
  `bytes` at the moment of the call; the 64-bit sequence word, which a call
  may read several times, is modelled by the read trace `seqAt : Nat → Nat`
  giving the value returned by the n-th read of that word during the call.
* Python exceptions are the `.error` branch of `Except PyErr`; mutating
  methods return the post-call object alongside their result, so a method of
  object `r` has type `(Except PyErr α) × Reader`.
* `memoryview(mm)[a : b]` is modelled by `sliceView` keeping only the extent
  (offset and length) of the borrowed view, with Python's slice clamping.
-/

/-- Byte of a region at index `i` (0 past the end, reads are range-checked
separately where the Python `struct` call would raise). -/
def byteAt (bs : List Nat) (i : Nat) : Nat := bs.getD i 0

/-- Little-endian 16-bit read at `off`, as `struct` format `<H`. -/
def le16 (bs : List Nat) (off : Nat) : Nat :=
  byteAt bs off + 256 * byteAt bs (off + 1)

/-- Little-endian 32-bit read at `off`, as `struct` format `<I`. -/
def le32 (bs : List Nat) (off : Nat) : Nat :=
  byteAt bs off + 256 * byteAt bs (off + 1) + 65536 * byteAt bs (off + 2) +
    16777216 * byteAt bs (off + 3)

/-- The frame-segment magic `0x55434642` (`'UCFB'`). -/
def MAGIC : Nat := 0x55434642

/-- The registry magic `0x55435247` (`'UCRG'` bytes). -/
def REG_MAGIC : Nat := 0x55435247

/-- The geometry-segment magic `0x5543474D` (`'UCGM'`). -/
def GEOM_MAGIC : Nat := 0x5543474D

/-- Pixel-format id of RGB888, the only defined format. -/
def FMT_RGB888 : Nat := 0

/-- Python exceptions that the embedded code can raise. -/
inductive PyErr where
  | nameError
  | bufferError
  | structError
  | runtimeError
  | fileNotFound
  | attributeError
deriving DecidableEq, Repr

/-- Extent of a borrowed `memoryview` into a mapped region. -/
structure View where
  off : Nat
  len : Nat
deriving DecidableEq, Repr

/-- Extent of `memoryview(mm)[a : b]` over a region of `size` bytes, with
Python's slice clamping. -/
def sliceView (size a b : Nat) : View :=
  { off := min a size, len := min b size - min a size }

/-- Side effects of a `close()` call on the operating system: whether the
unmap (`mm.close()`) completed and whether the descriptor was closed. -/
structure SysEffects where
  unmapped : Bool
  fd_closed : Bool
deriving DecidableEq, Repr

/-- State of a mapped frame segment at the moment of a call: `bytes` is the
region snapshot for the words read once, `seqAt n` is the value returned by
the n-th read of the active buffer's 64-bit sequence word during the call. -/
structure FrameMem where
  bytes : List Nat
  seqAt : Nat → Nat

/-- State of a mapped geometry segment at the moment of a call; `seqAt n` is
the n-th read of the 64-bit sequence word at offset 16. -/
structure GeoMem where
  bytes : List Nat
  seqAt : Nat → Nat

/-- One camera descriptor as produced by `RegistryReader.list_cameras`; the
name is kept as its byte content after truncation at the first NUL. -/
structure CameraDesc where
  name : List Nat
  index : Nat
  count : Nat
  width : Nat
  height : Nat
deriving DecidableEq, Repr

/-- The meta record returned by the geometry reader. -/
structure GeoMeta where
  count : Nat
  width : Nat
  height : Nat
deriving DecidableEq, Repr

/-! ## RegistryReader -/

/-- Python `RegistryReader` state: shm name, file descriptor, mapped region. -/
structure RegistryReader where
  name : String
  fd : Option Nat
  mm : Option (List Nat)

/-- Python `RegistryReader.__init__`. -/
def RegistryReader.init (name : String) : RegistryReader :=
  { name := name, fd := none, mm := none }

/-- Python `RegistryReader.connect`: `os.open` the path under `/dev/shm` and map the
whole file; the environment `env` gives the descriptor and bytes the OS
returns for a path, or `none` for `FileNotFoundError`. -/
def RegistryReader.connect (self : RegistryReader)
    (env : String → Option (Nat × List Nat)) :
    (Except PyErr Unit) × RegistryReader :=
  match env (("/dev/shm") ++ self.name) with
  | none => (.error .fileNotFound, self)
  | some (fdv, bs) => (.ok (), { self with fd := some fdv, mm := some bs })

/-- One descriptor parsed by `REG_CAM.unpack_from` (`<32s I I I I`) at `off`,
with the name split at its first NUL byte. -/
def REG_CAM_parse (bs : List Nat) (off : Nat) : CameraDesc :=
  { name := (((bs.drop off).take 32).takeWhile (fun b => b ≠ 0))
    index := le32 bs (off + 32)
    count := le32 bs (off + 36)
    width := le32 bs (off + 40)
    height := le32 bs (off + 44) }

/-- The `for _ in range(count)` loop of `list_cameras`: each iteration
unpacks one 48-byte descriptor, raising `struct.error` when the region is
too short for it. -/
def list_cameras_loop (bs : List Nat) (off : Nat) : Nat → Except PyErr (List CameraDesc)
  | 0 => .ok []
  | n + 1 =>
      if off + 48 ≤ bs.length then
        (list_cameras_loop bs (off + 48) n).map (fun rest => REG_CAM_parse bs off :: rest)
      else .error .structError

/-- Python `RegistryReader.list_cameras`: `[]` when `self.mm` is falsy (not
connected, or an empty mapping), `[]` on magic mismatch, otherwise one
descriptor per `camera_count`. -/
def RegistryReader.list_cameras (self : RegistryReader) : Except PyErr (List CameraDesc) :=
  match self.mm with
  | none => .ok []
  | some bs =>
      if bs.length = 0 then .ok []
      else if bs.length < 12 then .error .structError
      else if le32 bs 0 ≠ REG_MAGIC then .ok []
      else list_cameras_loop bs 12 (le32 bs 8)

/-! ## FrameShmReader -/

/-- Python `FrameShmReader` state, mirroring `__init__`'s fields. -/
structure FrameShmReader where
  name : String
  fd : Option Nat
  mm : Option FrameMem
  width : Nat
  height : Nat
  stride : Nat
  bufcnt : Nat
  header_size : Nat
  onebuf_size : Nat
  _last_seq : Nat

/-- Python `FrameShmReader.__init__`. -/
def FrameShmReader.init (name : String) : FrameShmReader :=
  { name := name, fd := none, mm := none, width := 0, height := 0,
    stride := 0, bufcnt := 0, header_size := 28, onebuf_size := 0,
    _last_seq := 0 }

/-- Python `FrameShmReader._path`: mmap by filesystem path under `/dev/shm`;
`name.startswith("/")` is a check on the first character. -/
def FrameShmReader._path (self : FrameShmReader) : String :=
  match self.name.data with
  | c :: _ => if c = '/' then ("/dev/shm") ++ self.name else ("/dev/shm/") ++ self.name
  | [] => ("/dev/shm/") ++ self.name

/-- Python `FrameShmReader.connect`: open and map the segment (both assigned before
validation, as in the source), unpack the 28-byte header (`struct.error` if
the region is shorter), check only the magic, then cache the header fields
and compute `onebuf_size = 8 + height*stride`. -/
def FrameShmReader.connect (self : FrameShmReader)
    (env : String → Option (Nat × FrameMem)) :
    (Except PyErr Unit) × FrameShmReader :=
  match env self._path with
  | none => (.error .fileNotFound, self)
  | some (fdv, mem) =>
      let self1 := { self with fd := some fdv, mm := some mem }
      if mem.bytes.length < 28 then (.error .structError, self1)
      else if le32 mem.bytes 0 ≠ MAGIC then (.error .runtimeError, self1)
      else
        (.ok (), { self1 with
          width := le32 mem.bytes 8
          height := le32 mem.bytes 12
          stride := le32 mem.bytes 16
          bufcnt := le32 mem.bytes 20
          onebuf_size := 8 + le32 mem.bytes 12 * le32 mem.bytes 16 })

/-- Python `FrameShmReader._buf_base`. -/
def FrameShmReader._buf_base (self : FrameShmReader) (idx : Nat) : Nat :=
  self.header_size + idx * self.onebuf_size

/-- The bounded spin loop shared by `FrameShmReader.latest_frame_view` and
`GeoShmReader.latest`, over the read trace `t` of the sequence word.  Each
iteration reads `s1`; if odd it re-reads and succeeds on a stable pair.  The
second component counts loop iterations executed.  `time.sleep` is reached
whenever `sleep_ns` is nonzero — and the `time` module is never imported in
`shm_protocol.py`, so that call raises `NameError`. -/
def seqlock_spin (t : Nat → Nat) (sleep_ns : Nat) : Nat → Nat → Except PyErr (Option Nat × Nat)
  | 0, _ => .ok (none, 0)
  | fuel + 1, k =>
      let s1 := t k
      if s1 % 2 = 1 then
        if sleep_ns ≠ 0 then .error .nameError
        else if t (k + 1) = s1 then .ok (some s1, 1)
        else (seqlock_spin t sleep_ns fuel (k + 2)).map (fun p => (p.1, p.2 + 1))
      else
        if sleep_ns ≠ 0 then .error .nameError
        else (seqlock_spin t sleep_ns fuel (k + 1)).map (fun p => (p.1, p.2 + 1))

/-- Python `FrameShmReader.latest_frame_view`: `(None, _last_seq)` when not
connected; otherwise read `active_index` at header offset 24, spin on the
active buffer's sequence within `max_spins`, and on a stable odd pair return
the payload view of `height*stride` bytes at 8 past the buffer base,
recording the sequence in `_last_seq`. -/
def FrameShmReader.latest_frame_view (self : FrameShmReader)
    (max_spins sleep_ns : Nat) :
    (Except PyErr (Option View × Nat)) × FrameShmReader :=
  match self.mm with
  | none => (.ok (none, self._last_seq), self)
  | some mem =>
      let active := le32 mem.bytes 24
      let base := self._buf_base active
      match seqlock_spin mem.seqAt sleep_ns max_spins 0 with
      | .error e => (.error e, self)
      | .ok (none, _) => (.ok (none, self._last_seq), self)
      | .ok (some s1, _) =>
          let payload_off := base + 8
          let payload_len := self.height * self.stride
          let mv := sliceView mem.bytes.length payload_off (payload_off + payload_len)
          (.ok (some mv, s1), { self with _last_seq := s1 })

/-- Python `FrameShmReader.latest_frame_view_fast`: one read of `active_index` at
offset 24 and exactly one read of the selected buffer's sequence; even means
writer in progress and returns `(None, _last_seq)` immediately. -/
def FrameShmReader.latest_frame_view_fast (self : FrameShmReader) :
    (Option View × Nat) × FrameShmReader :=
  match self.mm with
  | none => ((none, self._last_seq), self)
  | some mem =>
      let active_idx := le32 mem.bytes 24
      let base := self.header_size + active_idx * self.onebuf_size
      let seq := mem.seqAt 0
      if seq % 2 = 0 then ((none, self._last_seq), self)
      else
        let payload_off := base + 8
        let payload_len := self.height * self.stride
        let mv := sliceView mem.bytes.length payload_off (payload_off + payload_len)
        ((some mv, seq), { self with _last_seq := seq })

/-- Python `FrameShmReader.close`: `mm.close()` raises `BufferError` when a
`memoryview` into the mapping is still alive (`viewOutstanding`); in that
case `os.close(fd)` is skipped, but the `finally` clause clears `mm` and
`fd` regardless of the outcome.  `if self.mm:` is Python truthiness, so an
empty mapping is not closed. -/
def FrameShmReader.close (self : FrameShmReader) (viewOutstanding : Bool) :
    (Except PyErr Unit × SysEffects) × FrameShmReader :=
  let cleared := { self with mm := (none : Option FrameMem), fd := none }
  match self.mm with
  | some mem =>
      if mem.bytes.length ≠ 0 then
        if viewOutstanding then ((.error .bufferError, ⟨false, false⟩), cleared)
        else ((.ok (), ⟨true, self.fd.isSome⟩), cleared)
      else ((.ok (), ⟨false, self.fd.isSome⟩), cleared)
  | none => ((.ok (), ⟨false, self.fd.isSome⟩), cleared)

/-! ## CtrlShmWriter -/

/-- The fixed-layout control record packed by `CTRL_STRUCT`
(`<Q B x x x f 3f 3f 3f I`).  32-bit float fields are carried at an
abstract type `F`; no arithmetic is performed on them. -/
structure CtrlRecord (F : Type) where
  seq : Nat
  pause : Nat
  dt_scale : F
  cam_pos : F × F × F
  cam_look : F × F × F
  cam_up : F × F × F
  debug_flags : Nat

/-- A single slice assignment `shm.buf[start : start+length] = record`. -/
structure BulkWrite (F : Type) where
  start : Nat
  length : Nat
  record : CtrlRecord F

/-- Python `CTRL_STRUCT.size` for format `<Q B x x x f 3f 3f 3f I`. -/
def CTRL_STRUCT_size : Nat := 8 + 1 + 3 + 4 + 3 * 4 + 3 * 4 + 3 * 4 + 4

/-- Python `CtrlShmWriter` state; `shm` is `some ()` when connected. -/
structure CtrlShmWriter (F : Type) where
  name : String
  shm : Option Unit
  seq : Nat
  pause : Nat
  dt_scale : F
  cam_pos : F × F × F
  cam_look : F × F × F
  cam_up : F × F × F
  debug_flags : Nat

/-- Python `CtrlShmWriter.write`: increment the sequence counter, pack the full
record, and perform one bulk write of `CTRL_STRUCT.size` bytes at offset 0.
The increment happens before `self.shm.buf` is touched, so it survives the
`AttributeError` raised when not connected. -/
def CtrlShmWriter.write {F : Type} (self : CtrlShmWriter F) :
    (Except PyErr (BulkWrite F)) × CtrlShmWriter F :=
  let seq' := self.seq + 1
  let self' := { self with seq := seq' }
  let buf : CtrlRecord F :=
    { seq := seq', pause := self.pause, dt_scale := self.dt_scale,
      cam_pos := self.cam_pos, cam_look := self.cam_look,
      cam_up := self.cam_up, debug_flags := self.debug_flags }
  match self.shm with
  | none => (.error .attributeError, self')
  | some _ => (.ok { start := 0, length := CTRL_STRUCT_size, record := buf }, self')

/-- Python `n` successive calls to `write()`, keeping only the writer state. -/
def CtrlShmWriter.writeN {F : Type} (self : CtrlShmWriter F) : Nat → CtrlShmWriter F
  | 0 => self
  | n + 1 => ((self.writeN n).write).2

/-! ## GeoShmReader -/

/-- Python `GeoShmReader` state, mirroring `__init__`'s fields. -/
structure GeoShmReader where
  name : String
  fd : Option Nat
  mm : Option GeoMem
  count : Nat
  width : Nat
  height : Nat
  _last_seq : Nat
  _hdr_size : Nat

/-- Python `GeoShmReader.__init__`. -/
def GeoShmReader.init (name : String) : GeoShmReader :=
  { name := name, fd := none, mm := none, count := 0, width := 0,
    height := 0, _last_seq := 0, _hdr_size := 24 }

/-- Python `GeoShmReader.connect`: open `/dev/shm` + name, map it, unpack
`<IIII>` (`struct.error` when shorter than 16 bytes), validate the magic
and cache `count`, `width`, `height`. -/
def GeoShmReader.connect (self : GeoShmReader)
    (env : String → Option (Nat × GeoMem)) :
    (Except PyErr Unit) × GeoShmReader :=
  match env (("/dev/shm") ++ self.name) with
  | none => (.error .fileNotFound, self)
  | some (fdv, mem) =>
      let self1 := { self with fd := some fdv, mm := some mem }
      if mem.bytes.length < 16 then (.error .structError, self1)
      else if le32 mem.bytes 0 ≠ GEOM_MAGIC then (.error .runtimeError, self1)
      else
        (.ok (), { self1 with
          count := le32 mem.bytes 4
          width := le32 mem.bytes 8
          height := le32 mem.bytes 12 })

/-- Python `GeoShmReader.latest`: the same bounded spin loop as the frame reader,
on the single sequence word at offset 16; on a stable odd pair return the
coordinate view of `count*8` bytes after the 24-byte header together with
the cached meta record. -/
def GeoShmReader.latest (self : GeoShmReader) (max_spins sleep_ns : Nat) :
    (Except PyErr (Option View × Option GeoMeta × Nat)) × GeoShmReader :=
  match self.mm with
  | none => (.ok (none, none, self._last_seq), self)
  | some mem =>
      match seqlock_spin mem.seqAt sleep_ns max_spins 0 with
      | .error e => (.error e, self)
      | .ok (none, _) => (.ok (none, none, self._last_seq), self)
      | .ok (some s1, _) =>
          let payload := sliceView mem.bytes.length self._hdr_size
            (self._hdr_size + self.count * 8)
          let meta : GeoMeta := ⟨self.count, self.width, self.height⟩
          (.ok (some payload, some meta, s1), { self with _last_seq := s1 })

/-- Python `GeoShmReader.latest_fast`: exactly one read of the sequence word; even
returns `(None, None, _last_seq)` with no state change, odd returns the
coordinate view, the cached meta record and that sequence. -/
def GeoShmReader.latest_fast (self : GeoShmReader) :
    (Option View × Option GeoMeta × Nat) × GeoShmReader :=
  match self.mm with
  | none => ((none, none, self._last_seq), self)
  | some mem =>
      let seq := mem.seqAt 0
      if seq % 2 = 0 then ((none, none, self._last_seq), self)
      else
        let payload := sliceView mem.bytes.length self._hdr_size
          (self._hdr_size + self.count * 8)
        let meta : GeoMeta := ⟨self.count, self.width, self.height⟩
        ((some payload, some meta, seq), { self with _last_seq := seq })

/-- Python `GeoShmReader.close`: same try/finally discipline as the frame reader. -/
def GeoShmReader.close (self : GeoShmReader) (viewOutstanding : Bool) :
    (Except PyErr Unit × SysEffects) × GeoShmReader :=
  let cleared := { self with mm := (none : Option GeoMem), fd := none }
  match self.mm with
  | some mem =>
      if mem.bytes.length ≠ 0 then
        if viewOutstanding then ((.error .bufferError, ⟨false, false⟩), cleared)
        else ((.ok (), ⟨true, self.fd.isSome⟩), cleared)
      else ((.ok (), ⟨false, self.fd.isSome⟩), cleared)
  | none => ((.ok (), ⟨false, self.fd.isSome⟩), cleared)

/-! ## Viewport: channel lifecycle / camera switching -/

/-- Outcome of one run of the `_delayed_close` closure: either it finished,
or it caught a `BufferError` and rescheduled itself via
`QTimer.singleShot(50, _delayed_close)`.  It never lets the error escape. -/
inductive CloseOutcome where
  | done
  | rescheduled
deriving DecidableEq, Repr

/-- The `_delayed_close` closure of `Viewport._open_camera_by_index`: close
the old frame reader first, catching `BufferError` by rescheduling; then the
old geometry reader likewise.  The next run operates on the (mutated) same
reader objects, returned here alongside the outcome. -/
def Viewport._delayed_close (old_fb : Option FrameShmReader)
    (old_geom : Option GeoShmReader) (fbView geoView : Bool) :
    CloseOutcome × Option FrameShmReader × Option GeoShmReader :=
  match old_fb with
  | some rfb =>
      match rfb.close fbView with
      | ((.error _, _), rfb') => (.rescheduled, some rfb', old_geom)
      | ((.ok _, _), rfb') =>
          match old_geom with
          | none => (.done, some rfb', none)
          | some g =>
              match g.close geoView with
              | ((.error _, _), g') => (.rescheduled, some rfb', some g')
              | ((.ok _, _), g') => (.done, some rfb', some g')
  | none =>
      match old_geom with
      | none => (.done, none, none)
      | some g =>
          match g.close geoView with
          | ((.error _, _), g') => (.rescheduled, none, some g')
          | ((.ok _, _), g') => (.done, none, some g')

/-- The open half of `Viewport._open_camera_by_index` (the close half is
`Viewport._delayed_close`, scheduled asynchronously): build the per-camera
names by suffixing the camera index to the base names, construct fresh
readers and connect both, so the cached width/height/stride and geometry
count come from the new camera's headers. -/
def Viewport._open_camera_by_index (idx : Nat)
    (fbEnv : String → Option (Nat × FrameMem))
    (geoEnv : String → Option (Nat × GeoMem)) :
    Except PyErr (FrameShmReader × GeoShmReader) :=
  let fb_name := ("/uc3d_fb") ++ toString idx
  let geom_name := ("/uc3d_geom") ++ toString idx
  match (FrameShmReader.init fb_name).connect fbEnv with
  | (.error e, _) => .error e
  | (.ok _, fb) =>
      match (GeoShmReader.init geom_name).connect geoEnv with
      | (.error e, _) => .error e
      | (.ok _, geom) => .ok (fb, geom)

/-! ## Helper lemmas -/

/-- A slice that stays inside the region keeps its exact offset and length. -/
theorem sliceView_of_le {size a b : Nat} (hab : a ≤ b) (hb : b ≤ size) :
    sliceView size a b = ⟨a, b - a⟩ := by
  unfold sliceView
  rw [min_eq_left (le_trans hab hb), min_eq_left hb]

/-- Soundness of the spin loop: with no sleep, a successful spin read
reports a value that was seen odd and equal on two successive reads of the
sequence word. -/
theorem seqlock_spin_sound (t : Nat → Nat) :
    ∀ fuel k s n, seqlock_spin t 0 fuel k = .ok (some s, n) →
      s % 2 = 1 ∧ ∃ j, k ≤ j ∧ t j = s ∧ t (j + 1) = s := by
  intro fuel
  induction fuel with
  | zero =>
    intro k s n h
    simp [seqlock_spin] at h
  | succ m ih =>
    intro k s n h
    simp only [seqlock_spin] at h
    by_cases h1 : t k % 2 = 1
    · rw [if_pos h1, if_neg (by simp)] at h
      by_cases h2 : t (k + 1) = t k
      · rw [if_pos h2] at h
        injection h with h'
        injection h' with ha hb
        injection ha with hs
        exact ⟨hs ▸ h1, k, le_refl k, hs, hs ▸ h2⟩
      · rw [if_neg h2] at h
        cases hrec : seqlock_spin t 0 m (k + 2) with
        | error e => rw [hrec] at h; simp [Except.map] at h
        | ok p =>
          obtain ⟨p1, p2⟩ := p
          rw [hrec] at h
          simp only [Except.map, Except.ok.injEq, Prod.mk.injEq] at h
          obtain ⟨hres, -⟩ := h
          obtain ⟨hodd, j, hj, hjs, hjs'⟩ :=
            ih (k + 2) s p2 (by rw [hrec, hres])
          exact ⟨hodd, j, by omega, hjs, hjs'⟩
    · rw [if_neg h1, if_neg (by simp)] at h
      cases hrec : seqlock_spin t 0 m (k + 1) with
      | error e => rw [hrec] at h; simp [Except.map] at h
      | ok p =>
        obtain ⟨p1, p2⟩ := p
        rw [hrec] at h
        simp only [Except.map, Except.ok.injEq, Prod.mk.injEq] at h
        obtain ⟨hres, -⟩ := h
        obtain ⟨hodd, j, hj, hjs, hjs'⟩ :=
          ih (k + 1) s p2 (by rw [hrec, hres])
        exact ⟨hodd, j, by omega, hjs, hjs'⟩

/-- Completeness of the spin loop at the first attempt: if the first two
reads already form a stable odd pair and at least one spin is allowed, the
loop succeeds at once with that value. -/
theorem seqlock_spin_first (t : Nat → Nat) (m k : Nat)
    (h1 : t k % 2 = 1) (h2 : t (k + 1) = t k) :
    seqlock_spin t 0 (m + 1) k = .ok (some (t k), 1) := by
  simp [seqlock_spin, h1, h2]

/-! ## C10: reads on a disconnected reader -/

/-- C10: on a reader that is not connected (`mm is None`, which holds both
before any `connect` and after `close`), every read operation returns the
not-ready result carrying `_last_seq` instead of raising: this holds for
`FrameShmReader.latest_frame_view`, `FrameShmReader.latest_frame_view_fast`,
`GeoShmReader.latest` and `GeoShmReader.latest_fast`. -/
theorem reads_when_disconnected :
    (∀ (r : FrameShmReader) (N s : Nat), r.mm = none →
      r.latest_frame_view N s = (.ok (none, r._last_seq), r)) ∧
    (∀ (r : FrameShmReader), r.mm = none →
      r.latest_frame_view_fast = ((none, r._last_seq), r)) ∧
    (∀ (g : GeoShmReader) (N s : Nat), g.mm = none →
      g.latest N s = (.ok (none, none, g._last_seq), g)) ∧
    (∀ (g : GeoShmReader), g.mm = none →
      g.latest_fast = ((none, none, g._last_seq), g)) := by
  refine ⟨?_, ?_, ?_, ?_⟩
  · intro r N s h
    simp [FrameShmReader.latest_frame_view, h]
  · intro r h
    simp [FrameShmReader.latest_frame_view_fast, h]
  · intro g N s h
    simp [GeoShmReader.latest, h]
  · intro g h
    simp [GeoShmReader.latest_fast, h]

/-- Witness for `reads_when_disconnected` on freshly constructed readers. -/
theorem reads_when_disconnected_witness :
    (FrameShmReader.init ("/uc3d_fb")).latest_frame_view 64 0 =
      (.ok (none, 0), FrameShmReader.init ("/uc3d_fb")) ∧
    (FrameShmReader.init ("/uc3d_fb")).latest_frame_view_fast =
      ((none, 0), FrameShmReader.init ("/uc3d_fb")) ∧
    (GeoShmReader.init ("/uc3d_geom")).latest 200 0 =
      (.ok (none, none, 0), GeoShmReader.init ("/uc3d_geom")) ∧
    (GeoShmReader.init ("/uc3d_geom")).latest_fast =
      ((none, none, 0), GeoShmReader.init ("/uc3d_geom")) := by
  have h := reads_when_disconnected
  exact ⟨h.1 _ 64 0 rfl, h.2.1 _ rfl, h.2.2.1 _ 200 0 rfl, h.2.2.2 _ rfl⟩

/-! ## C3: bounded spin, and the missing `time` import -/

/-- A connected frame reader whose buffer never stabilizes: every read of
the sequence word returns 2 (even, writer in progress). -/
def cFb3 : FrameShmReader :=
  { FrameShmReader.init ("/uc3d_fb0") with
    fd := some 3
    mm := some { bytes := List.replicate 28 0, seqAt := fun _ => 2 } }

/-- A connected geometry reader whose buffer never stabilizes. -/
def cGeo3 : GeoShmReader :=
  { GeoShmReader.init ("/uc3d_geom0") with
    fd := some 4
    mm := some { bytes := List.replicate 24 0, seqAt := fun _ => 2 } }

/-- C3 (code bug): `shm_protocol.py` never imports `time`, yet both bounded
spin reads call `time.sleep` whenever `sleep_ns` is nonzero, so with
`max_spins = 1, sleep_ns = 1` the calls raise `NameError` instead of
returning not-ready — the claimed "terminates normally for every sleep_ns
value, never fails" holds only for `sleep_ns = 0`, where the loop indeed
performs exactly `max_spins` attempts (here 5) and returns
`(None, last_seq)`. -/
theorem spin_read_missing_time_import :
    (cFb3.latest_frame_view 1 1).1 = .error .nameError ∧
    (cGeo3.latest 1 1).1 = .error .nameError ∧
    cFb3.latest_frame_view 5 0 = (.ok (none, 0), cFb3) ∧
    cGeo3.latest 5 0 = (.ok (none, none, 0), cGeo3) ∧
    seqlock_spin (fun _ => 2) 0 5 0 = .ok (none, 5) :=
  ⟨rfl, rfl, rfl, rfl, rfl⟩

/-! ## C1: seqlock discipline of the bounded-spin frame read -/

/-- C1: `FrameShmReader.latest_frame_view` returns a payload view with its
sequence only when two successive reads of the active buffer's sequence word
were equal and odd: whenever a view is returned its sequence was seen odd on
two consecutive reads, the view covers exactly `height*stride` bytes
starting 8 bytes past the active buffer's base, and `_last_seq` records it
(soundness, first conjunct); conversely, when the stability check passes —
already at the first read pair here — the reader does report payload-valid
with exactly that view (completeness, second conjunct). -/
theorem latest_frame_view_seqlock :
    (∀ (r : FrameShmReader) (mem : FrameMem) (N s : Nat) (v : View)
        (r' : FrameShmReader),
      r.mm = some mem →
      r._buf_base (le32 mem.bytes 24) + 8 + r.height * r.stride ≤ mem.bytes.length →
      r.latest_frame_view N 0 = (.ok (some v, s), r') →
      s % 2 = 1 ∧ (∃ j, mem.seqAt j = s ∧ mem.seqAt (j + 1) = s) ∧
      v = ⟨r._buf_base (le32 mem.bytes 24) + 8, r.height * r.stride⟩ ∧
      r' = { r with _last_seq := s }) ∧
    (∀ (r : FrameShmReader) (mem : FrameMem) (N : Nat),
      r.mm = some mem →
      r._buf_base (le32 mem.bytes 24) + 8 + r.height * r.stride ≤ mem.bytes.length →
      mem.seqAt 0 % 2 = 1 → mem.seqAt 1 = mem.seqAt 0 → 1 ≤ N →
      r.latest_frame_view N 0 =
        (.ok (some ⟨r._buf_base (le32 mem.bytes 24) + 8, r.height * r.stride⟩,
          mem.seqAt 0), { r with _last_seq := mem.seqAt 0 })) := by
  constructor
  · intro r mem N s v r' hmm hsz h
    simp only [FrameShmReader.latest_frame_view, hmm] at h
    cases hspin : seqlock_spin mem.seqAt 0 N 0 with
    | error e => rw [hspin] at h; simp at h
    | ok p =>
      obtain ⟨res, cnt⟩ := p
      cases res with
      | none => rw [hspin] at h; simp at h
      | some s1 =>
        rw [hspin] at h
        simp only [Prod.mk.injEq, Except.ok.injEq, Option.some.injEq] at h
        obtain ⟨⟨hv, hs⟩, hr'⟩ := h
        subst hs
        obtain ⟨hodd, j, -, hj1, hj2⟩ := seqlock_spin_sound mem.seqAt N 0 s1 cnt hspin
        refine ⟨hodd, ⟨j, hj1, hj2⟩, ?_, ?_⟩
        · rw [← hv, sliceView_of_le (Nat.le_add_right _ _) hsz,
            Nat.add_sub_cancel_left]
        · rw [← hr', hmm]
  · intro r mem N hmm hsz h1 h2 hN
    obtain ⟨m, rfl⟩ : ∃ m, N = m + 1 := ⟨N - 1, by omega⟩
    have hspin := seqlock_spin_first mem.seqAt m 0 h1 h2
    simp only [FrameShmReader.latest_frame_view, hmm]
    rw [hspin]
    simp [sliceView_of_le (Nat.le_add_right _ _) hsz, Nat.add_sub_cancel_left, hmm]

/-- A connected mapped frame segment: 2x2 RGB888, stride 6, two buffers,
`active_index = 0`, and a stable odd sequence (7) on every read. -/
def cMem1 : FrameMem :=
  { bytes := List.replicate 68 0, seqAt := fun _ => 7 }

/-- A frame reader connected to `cMem1` (as `connect` would leave it). -/
def cFb1 : FrameShmReader :=
  { FrameShmReader.init ("/uc3d_fb1") with
    fd := some 3, mm := some cMem1, width := 2, height := 2, stride := 6,
    bufcnt := 2, onebuf_size := 20 }

/-- Witness for `latest_frame_view_seqlock`: on `cFb1` the stability check
passes at the first pair, and the bounded-spin read returns the view of
`height*stride = 12` bytes at offset 36 = 28 + 8 with sequence 7. -/
theorem latest_frame_view_seqlock_witness :
    cFb1.latest_frame_view 64 0 =
      (.ok (some ⟨36, 12⟩, 7), { cFb1 with _last_seq := 7 }) :=
  latest_frame_view_seqlock.2 cFb1 cMem1 64 rfl (by decide) rfl rfl (by omega)

/-! ## C2: the immediate non-blocking frame read -/

/-- C2: `FrameShmReader.latest_frame_view_fast` reads `active_index` fresh
from header offset 24 and performs exactly one sequence check on the
selected buffer: an even sequence returns `(None, _last_seq)` immediately
with no state change; an odd sequence returns the view of exactly
`height*stride` payload bytes (at 8 past the buffer selected by offset 24)
together with that sequence; and the result depends on nothing but the
header bytes and the single read `seqAt 0` — there is no retry. -/
theorem latest_frame_view_fast_one_check :
    (∀ (r : FrameShmReader) (mem : FrameMem),
      r.mm = some mem → mem.seqAt 0 % 2 = 0 →
      r.latest_frame_view_fast = ((none, r._last_seq), r)) ∧
    (∀ (r : FrameShmReader) (mem : FrameMem),
      r.mm = some mem →
      r.header_size + le32 mem.bytes 24 * r.onebuf_size + 8 +
        r.height * r.stride ≤ mem.bytes.length →
      mem.seqAt 0 % 2 = 1 →
      r.latest_frame_view_fast =
        ((some ⟨r.header_size + le32 mem.bytes 24 * r.onebuf_size + 8,
            r.height * r.stride⟩, mem.seqAt 0),
          { r with _last_seq := mem.seqAt 0 })) ∧
    (∀ (r : FrameShmReader) (mem mem' : FrameMem),
      mem'.bytes = mem.bytes → mem'.seqAt 0 = mem.seqAt 0 →
      ({ r with mm := some mem' } : FrameShmReader).latest_frame_view_fast.1 =
        ({ r with mm := some mem } : FrameShmReader).latest_frame_view_fast.1) := by
  refine ⟨?_, ?_, ?_⟩
  · intro r mem hmm heven
    simp [FrameShmReader.latest_frame_view_fast, hmm, heven]
  · intro r mem hmm hsz hodd
    have hne : ¬ mem.seqAt 0 % 2 = 0 := by omega
    simp only [FrameShmReader.latest_frame_view_fast, hmm, if_neg hne]
    simp [sliceView_of_le (Nat.le_add_right _ _) hsz, Nat.add_sub_cancel_left, hmm]
  · intro r mem mem' hb h0
    by_cases hc : mem.seqAt 0 % 2 = 0 <;>
      simp [FrameShmReader.latest_frame_view_fast, hb, h0, hc]

/-- Witness for `latest_frame_view_fast_one_check`: on `cFb1` (sequence 7,
odd) the immediate read returns the 12-byte view at offset 36 with sequence
7; on `cFb3` (sequence 2, even) it returns not-ready with `_last_seq`
unchanged. -/
theorem latest_frame_view_fast_one_check_witness :
    cFb1.latest_frame_view_fast =
      ((some ⟨36, 12⟩, 7), { cFb1 with _last_seq := 7 }) ∧
    cFb3.latest_frame_view_fast = ((none, 0), cFb3) :=
  ⟨latest_frame_view_fast_one_check.2.1 cFb1 cMem1 rfl (by decide) rfl,
   latest_frame_view_fast_one_check.1 cFb3
     { bytes := List.replicate 28 0, seqAt := fun _ => 2 } rfl rfl⟩

/-! ## C4: what `FrameShmReader.connect` actually validates -/

/-- A 28-byte frame header whose magic is correct but whose version is 2,
whose pixel format is 1 (not RGB888), and whose declared geometry
(`buffer_count = 4`, `height*stride = 12`) implies a segment of 108 bytes —
far larger than the 28-byte region. -/
def cMem4 : FrameMem :=
  { bytes := [66, 70, 67, 85, 2, 0, 1, 0, 2, 0, 0, 0, 2, 0, 0, 0,
      6, 0, 0, 0, 4, 0, 0, 0, 0, 0, 0, 0]
    seqAt := fun _ => 0 }

/-- An OS environment exposing only `cMem4` under the frame path. -/
def cEnv4 : String → Option (Nat × FrameMem) :=
  fun p => if p = ("/dev/shm/uc3d_fbX") then some (5, cMem4) else none

/-- C4 counterexample: `connect()` succeeds on `cMem4` although its pixel
format is not RGB888, its version is not 1, and the mapped region is smaller
than the size implied by the header — so "fails if and only if the header is
invalid (magic, version, pixel_format, implied size)" is false of the code,
which checks the magic alone. -/
theorem connect_validation_counterexample :
    ((FrameShmReader.init ("/uc3d_fbX")).connect cEnv4).1 = .ok () ∧
    le16 cMem4.bytes 6 ≠ FMT_RGB888 ∧
    le16 cMem4.bytes 4 ≠ 1 ∧
    28 + le32 cMem4.bytes 20 * (8 + le32 cMem4.bytes 12 * le32 cMem4.bytes 16) >
      cMem4.bytes.length := by
  refine ⟨rfl, by decide, by decide, by decide⟩

/-- C4 amended: `connect()` fails iff the segment is missing
(`FileNotFoundError`), the mapped region is shorter than the 28-byte header
(`struct.error`), or the magic mismatches (`RuntimeError`); version, pixel
format, and the total size implied by the header are not validated.  On
every region with a full header and the correct magic it succeeds, caching
width/height/stride/buffer_count exactly as declared and
`onebuf_size = 8 + height*stride`. -/
theorem connect_validation_amended :
    (∀ (r : FrameShmReader) (env : String → Option (Nat × FrameMem)),
      env r._path = none → (r.connect env).1 = .error .fileNotFound) ∧
    (∀ (r : FrameShmReader) (env : String → Option (Nat × FrameMem))
        (fdv : Nat) (mem : FrameMem),
      env r._path = some (fdv, mem) →
      (((r.connect env).1 = .ok ()) ↔
        (28 ≤ mem.bytes.length ∧ le32 mem.bytes 0 = MAGIC))) ∧
    (∀ (r : FrameShmReader) (env : String → Option (Nat × FrameMem))
        (fdv : Nat) (mem : FrameMem),
      env r._path = some (fdv, mem) →
      28 ≤ mem.bytes.length → le32 mem.bytes 0 = MAGIC →
      (r.connect env).2 =
        { r with
          fd := some fdv
          mm := some mem
          width := le32 mem.bytes 8
          height := le32 mem.bytes 12
          stride := le32 mem.bytes 16
          bufcnt := le32 mem.bytes 20
          onebuf_size := 8 + le32 mem.bytes 12 * le32 mem.bytes 16 }) := by
  refine ⟨?_, ?_, ?_⟩
  · intro r env h
    simp [FrameShmReader.connect, h]
  · intro r env fdv mem h
    simp only [FrameShmReader.connect, h]
    by_cases hl : mem.bytes.length < 28
    · simp only [if_pos hl]
      constructor
      · intro hc
        exact absurd hc (by simp)
      · intro hc
        omega
    · by_cases hm : le32 mem.bytes 0 = MAGIC
      · simp [hl, hm]
        omega
      · simp [hl, hm]
  · intro r env fdv mem h hl hm
    simp [FrameShmReader.connect, h, Nat.not_lt.mpr hl, hm]

/-- A fully valid frame segment: magic `0x55434642`, version 1, RGB888,
2x2, stride 6, two buffers of 20 bytes each (68 bytes total). -/
def cMemOk : FrameMem :=
  { bytes := [66, 70, 67, 85, 1, 0, 0, 0, 2, 0, 0, 0, 2, 0, 0, 0,
      6, 0, 0, 0, 2, 0, 0, 0, 0, 0, 0, 0] ++ List.replicate 40 0
    seqAt := fun _ => 7 }

/-- An OS environment exposing only `cMemOk` under the frame path. -/
def cEnvOk : String → Option (Nat × FrameMem) :=
  fun p => if p = ("/dev/shm/uc3d_fb1") then some (3, cMemOk) else none

/-- Witness for `connect_validation_amended`: connecting to the valid
segment `cMemOk` succeeds and caches exactly the declared header fields. -/
theorem connect_validation_amended_witness :
    (((FrameShmReader.init ("/uc3d_fb1")).connect cEnvOk).1 = .ok ()) ∧
    ((FrameShmReader.init ("/uc3d_fb1")).connect cEnvOk).2 =
      { FrameShmReader.init ("/uc3d_fb1") with
        fd := some 3
        mm := some cMemOk
        width := 2
        height := 2
        stride := 6
        bufcnt := 2
        onebuf_size := 20 } :=
  ⟨(connect_validation_amended.2.1 (FrameShmReader.init ("/uc3d_fb1"))
      cEnvOk 3 cMemOk rfl).mpr ⟨by decide, by decide⟩,
   connect_validation_amended.2.2 (FrameShmReader.init ("/uc3d_fb1"))
      cEnvOk 3 cMemOk rfl (by decide) (by decide)⟩

/-! ## C5: the immediate geometry read -/

/-- C5: `GeoShmReader.latest_fast` with an even sequence (at offset 16)
returns `(None, None, _last_seq)` leaving the reader state unchanged; with
an odd sequence it returns the coordinate view of exactly `count*8` bytes
after the header, the meta record `{count, width, height}` cached at
connect, and that sequence, updating `_last_seq` to it. -/
theorem geo_latest_fast_spec :
    (∀ (g : GeoShmReader) (mem : GeoMem),
      g.mm = some mem → mem.seqAt 0 % 2 = 0 →
      g.latest_fast = ((none, none, g._last_seq), g)) ∧
    (∀ (g : GeoShmReader) (mem : GeoMem),
      g.mm = some mem →
      g._hdr_size + g.count * 8 ≤ mem.bytes.length →
      mem.seqAt 0 % 2 = 1 →
      g.latest_fast =
        ((some ⟨g._hdr_size, g.count * 8⟩, some ⟨g.count, g.width, g.height⟩,
          mem.seqAt 0), { g with _last_seq := mem.seqAt 0 })) := by
  constructor
  · intro g mem hmm heven
    simp [GeoShmReader.latest_fast, hmm, heven]
  · intro g mem hmm hsz hodd
    have hne : ¬ mem.seqAt 0 % 2 = 0 := by omega
    simp only [GeoShmReader.latest_fast, hmm, if_neg hne]
    simp [sliceView_of_le (Nat.le_add_right _ _) hsz, Nat.add_sub_cancel_left, hmm]

/-- A geometry reader as in end-to-end scenario C: `point_count = 100`,
sequence 4 (even, writer in progress). -/
def cGeoE : GeoShmReader :=
  { GeoShmReader.init ("/uc3d_geom1") with
    fd := some 4
    mm := some { bytes := List.replicate 824 0, seqAt := fun _ => 4 }
    count := 100, width := 192, height := 96 }

/-- A geometry reader with two points and a stable odd sequence 7. -/
def cGeoO : GeoShmReader :=
  { GeoShmReader.init ("/uc3d_geom2") with
    fd := some 4
    mm := some { bytes := List.replicate 40 0, seqAt := fun _ => 7 }
    count := 2, width := 192, height := 96 }

/-- Witness for `geo_latest_fast_spec`: scenario C (sequence 4) returns
unavailable leaving the reader untouched; with sequence 7 it returns the
16-byte coordinate view, the cached meta, and sequence 7. -/
theorem geo_latest_fast_spec_witness :
    cGeoE.latest_fast = ((none, none, 0), cGeoE) ∧
    cGeoO.latest_fast =
      ((some ⟨24, 16⟩, some ⟨2, 192, 96⟩, 7), { cGeoO with _last_seq := 7 }) :=
  ⟨geo_latest_fast_spec.1 cGeoE
      { bytes := List.replicate 824 0, seqAt := fun _ => 4 } rfl rfl,
   geo_latest_fast_spec.2 cGeoO
      { bytes := List.replicate 40 0, seqAt := fun _ => 7 } rfl (by decide) rfl⟩

/-! ## C6: listing the registry -/

/-- The descriptor loop succeeds and parses descriptors in on-disk order
when the region holds all of them. -/
theorem list_cameras_loop_ok (bs : List Nat) :
    ∀ (n off : Nat), off + 48 * n ≤ bs.length →
      list_cameras_loop bs off n =
        .ok ((List.range n).map (fun i => REG_CAM_parse bs (off + 48 * i))) := by
  intro n
  induction n with
  | zero =>
    intro off h
    simp [list_cameras_loop]
  | succ m ih =>
    intro off h
    have h1 : off + 48 ≤ bs.length := by omega
    simp only [list_cameras_loop, if_pos h1]
    rw [ih (off + 48) (by omega), List.range_succ_eq_map]
    simp only [Except.map, List.map_cons, List.map_map, Function.comp_def,
      Nat.succ_eq_add_one, Nat.mul_zero, Nat.add_zero, Except.ok.injEq,
      List.cons.injEq]
    refine ⟨trivial, ?_⟩
    refine List.map_congr_left fun i hi => ?_
    congr 1
    ring

/-- C6: `RegistryReader.list_cameras` returns an empty list — never an
error — when not connected, when the magic mismatches, and when
`camera_count = 0`; and on a region holding all its declared descriptors it
returns exactly `camera_count` of them in on-disk order, each parsed from
its 48-byte slot with the name truncated at its first NUL byte (the final
conjunct: no NUL byte survives in a parsed name). -/
theorem list_cameras_spec :
    (∀ (r : RegistryReader), r.mm = none → r.list_cameras = .ok []) ∧
    (∀ (r : RegistryReader) (bs : List Nat), r.mm = some bs →
      12 ≤ bs.length → le32 bs 0 ≠ REG_MAGIC → r.list_cameras = .ok []) ∧
    (∀ (r : RegistryReader) (bs : List Nat), r.mm = some bs →
      12 ≤ bs.length → le32 bs 0 = REG_MAGIC → le32 bs 8 = 0 →
      r.list_cameras = .ok []) ∧
    (∀ (r : RegistryReader) (bs : List Nat), r.mm = some bs →
      le32 bs 0 = REG_MAGIC → 12 + 48 * le32 bs 8 ≤ bs.length →
      r.list_cameras =
        .ok ((List.range (le32 bs 8)).map (fun i => REG_CAM_parse bs (12 + 48 * i)))) ∧
    (∀ (bs : List Nat) (off b : Nat), b ∈ (REG_CAM_parse bs off).name → b ≠ 0) := by
  refine ⟨?_, ?_, ?_, ?_, ?_⟩
  · intro r h
    simp [RegistryReader.list_cameras, h]
  · intro r bs h hlen hm
    have h0 : ¬ bs.length = 0 := by omega
    have h12 : ¬ bs.length < 12 := by omega
    simp [RegistryReader.list_cameras, h, h0, h12, hm]
  · intro r bs h hlen hm hc
    have h0 : ¬ bs.length = 0 := by omega
    have h12 : ¬ bs.length < 12 := by omega
    simp [RegistryReader.list_cameras, h, h0, h12, hm, hc, list_cameras_loop]
  · intro r bs h hm hsz
    have h0 : ¬ bs.length = 0 := by omega
    have h12 : ¬ bs.length < 12 := by omega
    simp only [RegistryReader.list_cameras, h, if_neg h0, if_neg h12, hm,
      ne_eq, not_true_eq_false, if_false]
    exact list_cameras_loop_ok bs (le32 bs 8) 12 (by omega)
  · intro bs off b hb
    simpa using List.mem_takeWhile_imp hb

/-- The registry region of end-to-end scenario A: magic `0x55435247`,
version 1, two descriptors `("front", 0, 100, 192, 96)` and
`("rear", 1, 100, 192, 96)` with 32-byte NUL-padded names. -/
def cRegBytes : List Nat :=
  [71, 82, 67, 85, 1, 0, 0, 0, 2, 0, 0, 0] ++
    ([102, 114, 111, 110, 116] ++ List.replicate 27 0 ++
      [0, 0, 0, 0] ++ [100, 0, 0, 0] ++ [192, 0, 0, 0] ++ [96, 0, 0, 0]) ++
    ([114, 101, 97, 114] ++ List.replicate 28 0 ++
      [1, 0, 0, 0] ++ [100, 0, 0, 0] ++ [192, 0, 0, 0] ++ [96, 0, 0, 0])

/-- A registry reader mapped over `cRegBytes`. -/
def cReg : RegistryReader :=
  { name := "/uc3d_reg", fd := some 6, mm := some cRegBytes }

/-- Witness for `list_cameras_spec` on scenario A: exactly the two
descriptors, in on-disk order, names truncated at the first NUL. -/
theorem list_cameras_spec_witness :
    cReg.list_cameras =
      .ok ((List.range 2).map (fun i => REG_CAM_parse cRegBytes (12 + 48 * i))) ∧
    (List.range 2).map (fun i => REG_CAM_parse cRegBytes (12 + 48 * i)) =
      [{ name := [102, 114, 111, 110, 116], index := 0, count := 100,
          width := 192, height := 96 },
        { name := [114, 101, 97, 114], index := 1, count := 100,
          width := 192, height := 96 }] :=
  ⟨list_cameras_spec.2.2.2.1 cReg cRegBytes rfl (by decide) (by decide),
   by decide⟩

/-! ## C7: close with a borrowed view outstanding -/

/-- C7 counterexample: on the connected reader `cFb1`, a close attempt with
a borrowed view outstanding raises `BufferError`, yet the reader state is
NOT left unchanged: the `finally` clause clears both `mm` and `fd`, and
neither the unmap nor the descriptor close was performed — contradicting
"the failed attempt leaves the channel's state unchanged (still open,
mapping and descriptor retained)". -/
theorem close_busy_counterexample :
    (cFb1.close true).1.1 = .error .bufferError ∧
    (cFb1.close true).2.mm = none ∧
    (cFb1.close true).2.fd = none ∧
    (cFb1.close true).1.2 = ⟨false, false⟩ :=
  ⟨rfl, rfl, rfl, rfl⟩

/-- C7 amended: when a close attempt on a connected frame channel fails
because a borrowed view is outstanding (`BufferError`), the attempt performs
no unmap and no descriptor close but still clears `mm` and `fd` (the
`finally` clause); the viewport's `_delayed_close` catches the error and
reschedules instead of surfacing it, and the rescheduled attempt, running on
the already-cleared reader, completes as a no-op success — it reports done
without ever performing the unmap itself. -/
theorem close_busy_amended :
    ∀ (r : FrameShmReader) (mem : FrameMem),
      r.mm = some mem → mem.bytes.length ≠ 0 →
      (r.close true).1.1 = .error .bufferError ∧
      (r.close true).1.2 = ⟨false, false⟩ ∧
      (r.close true).2.mm = none ∧
      (r.close true).2.fd = none ∧
      ((r.close true).2.close true).1.1 = .ok () ∧
      ((r.close true).2.close true).1.2 = ⟨false, false⟩ ∧
      Viewport._delayed_close (some r) none true false =
        (.rescheduled, some (r.close true).2, none) ∧
      Viewport._delayed_close (some (r.close true).2) none true false =
        (.done, some ((r.close true).2.close true).2, none) := by
  intro r mem hmm hne
  have hc : r.close true =
      ((.error .bufferError, ⟨false, false⟩),
        { r with mm := none, fd := none }) := by
    simp [FrameShmReader.close, hmm, hne]
  have hc2 : ({ r with mm := (none : Option FrameMem), fd := none }
      : FrameShmReader).close true =
      ((.ok (), ⟨false, false⟩), { r with mm := none, fd := none }) := by
    simp [FrameShmReader.close]
  refine ⟨by rw [hc], by rw [hc], by rw [hc], by rw [hc], ?_, ?_, ?_, ?_⟩
  · rw [hc, hc2]
  · rw [hc, hc2]
  · simp [Viewport._delayed_close, hc]
  · simp [Viewport._delayed_close, hc, hc2]

/-- Witness for `close_busy_amended` on the concrete reader `cFb1`. -/
theorem close_busy_amended_witness :
    ((cFb1.close true).2.close true).1.1 = .ok () ∧
    Viewport._delayed_close (some (cFb1.close true).2) none true false =
      (.done, some ((cFb1.close true).2.close true).2, none) :=
  ⟨(close_busy_amended cFb1 cMem1 rfl (by decide)).2.2.2.2.1,
   (close_busy_amended cFb1 cMem1 rfl (by decide)).2.2.2.2.2.2.2⟩

/-! ## C8: camera switching opens index-suffixed segments -/

/-- Path of the frame reader constructed for a suffixed base name: the name
starts with `/`, so `_path` prepends `/dev/shm` to it. -/
theorem fb_path_suffix (t : String) :
    (FrameShmReader.init (("/uc3d_fb") ++ t))._path = ("/dev/shm/uc3d_fb") ++ t := by
  obtain ⟨l⟩ := t
  rfl

/-- Path used by the geometry reader's `connect` for a suffixed base name. -/
theorem geo_path_suffix (t : String) :
    ("/dev/shm") ++ (("/uc3d_geom") ++ t) = ("/dev/shm/uc3d_geom") ++ t := by
  obtain ⟨l⟩ := t
  rfl

/-- C8: switching to camera index `idx` opens exactly the segments named by
suffixing the camera index to the base names (`/uc3d_fb{idx}` and
`/uc3d_geom{idx}`, mapped under `/dev/shm`), and the readers handed back for
polling carry the width/height/stride and geometry count read from the new
camera's headers — their fields are those of `mem`/`gmem`, the segments of
the new index, with no trace of any previous camera. -/
theorem open_camera_by_index_refreshes :
    ∀ (idx : Nat) (fbEnv : String → Option (Nat × FrameMem))
      (geoEnv : String → Option (Nat × GeoMem))
      (fdv gfd : Nat) (mem : FrameMem) (gmem : GeoMem),
      fbEnv (("/dev/shm/uc3d_fb") ++ toString idx) = some (fdv, mem) →
      28 ≤ mem.bytes.length → le32 mem.bytes 0 = MAGIC →
      geoEnv (("/dev/shm/uc3d_geom") ++ toString idx) = some (gfd, gmem) →
      16 ≤ gmem.bytes.length → le32 gmem.bytes 0 = GEOM_MAGIC →
      Viewport._open_camera_by_index idx fbEnv geoEnv =
        .ok ({ FrameShmReader.init (("/uc3d_fb") ++ toString idx) with
                fd := some fdv
                mm := some mem
                width := le32 mem.bytes 8
                height := le32 mem.bytes 12
                stride := le32 mem.bytes 16
                bufcnt := le32 mem.bytes 20
                onebuf_size := 8 + le32 mem.bytes 12 * le32 mem.bytes 16 },
              { GeoShmReader.init (("/uc3d_geom") ++ toString idx) with
                fd := some gfd
                mm := some gmem
                count := le32 gmem.bytes 4
                width := le32 gmem.bytes 8
                height := le32 gmem.bytes 12 }) := by
  intro idx fbEnv geoEnv fdv gfd mem gmem hf hlen hm hg hglen hgm
  have hfc : (FrameShmReader.init (("/uc3d_fb") ++ toString idx)).connect fbEnv =
      (.ok (), { FrameShmReader.init (("/uc3d_fb") ++ toString idx) with
        fd := some fdv
        mm := some mem
        width := le32 mem.bytes 8
        height := le32 mem.bytes 12
        stride := le32 mem.bytes 16
        bufcnt := le32 mem.bytes 20
        onebuf_size := 8 + le32 mem.bytes 12 * le32 mem.bytes 16 }) := by
    simp [FrameShmReader.connect, fb_path_suffix, hf, Nat.not_lt.mpr hlen, hm]
  simp only [Viewport._open_camera_by_index]
  rw [hfc]
  simp only [GeoShmReader.init]
  have hgc : (⟨("/uc3d_geom") ++ toString idx, none, none, 0, 0, 0, 0, 24⟩
        : GeoShmReader).connect geoEnv =
      (.ok (), (⟨("/uc3d_geom") ++ toString idx, some gfd, some gmem,
        le32 gmem.bytes 4, le32 gmem.bytes 8, le32 gmem.bytes 12, 0, 24⟩
          : GeoShmReader)) := by
    simp [GeoShmReader.connect, geo_path_suffix, hg, Nat.not_lt.mpr hglen, hgm]
  rw [hgc]

/-- A valid geometry segment for camera index 1: two points, 192x96. -/
def cGeoMem1 : GeoMem :=
  { bytes := [77, 71, 67, 85, 2, 0, 0, 0, 192, 0, 0, 0, 96, 0, 0, 0] ++
      List.replicate 24 0
    seqAt := fun _ => 7 }

/-- An OS environment exposing only `cGeoMem1` under the geometry path. -/
def cGeoEnv : String → Option (Nat × GeoMem) :=
  fun p => if p = ("/dev/shm/uc3d_geom1") then some (4, cGeoMem1) else none

/-- Witness for `open_camera_by_index_refreshes`: switching to camera 1
against `cEnvOk`/`cGeoEnv` opens `/uc3d_fb1` and `/uc3d_geom1` and caches
the new headers' 2x2/stride-6 frame geometry and 2-point geometry count. -/
theorem open_camera_by_index_refreshes_witness :
    Viewport._open_camera_by_index 1 cEnvOk cGeoEnv =
      .ok ({ FrameShmReader.init ("/uc3d_fb1") with
              fd := some 3
              mm := some cMemOk
              width := 2
              height := 2
              stride := 6
              bufcnt := 2
              onebuf_size := 20 },
            { GeoShmReader.init ("/uc3d_geom1") with
              fd := some 4
              mm := some cGeoMem1
              count := 2
              width := 192
              height := 96 }) :=
  open_camera_by_index_refreshes 1 cEnvOk cGeoEnv 3 4 cMemOk cGeoMem1
    rfl (by decide) (by decide) rfl (by decide) (by decide)

/-! ## C9: the control-channel writer -/

/-- C9: every `CtrlShmWriter.write()` call increments the internal sequence
counter by exactly one (even a failing call — the increment precedes the
buffer access), a connected call performs one bulk write of the complete
fixed-layout 56-byte record carrying the incremented sequence and all the
writer's fields, and the sequence values across successive calls are
strictly increasing. -/
theorem ctrl_write_spec :
    ∀ (F : Type) (w : CtrlShmWriter F),
      ((w.write).2 = { w with seq := w.seq + 1 }) ∧
      (w.shm = some () →
        (w.write).1 = .ok
          { start := 0, length := CTRL_STRUCT_size,
            record := { seq := w.seq + 1, pause := w.pause,
                        dt_scale := w.dt_scale, cam_pos := w.cam_pos,
                        cam_look := w.cam_look, cam_up := w.cam_up,
                        debug_flags := w.debug_flags } }) ∧
      CTRL_STRUCT_size = 56 ∧
      (∀ n, (w.writeN n).seq = w.seq + n) ∧
      (∀ m n, m < n → (w.writeN m).seq < (w.writeN n).seq) := by
  intro F w
  have hstate : ∀ (x : CtrlShmWriter F), (x.write).2 = { x with seq := x.seq + 1 } := by
    intro x
    cases hx : x.shm <;> simp [CtrlShmWriter.write, hx]
  have hseq : ∀ n, (w.writeN n).seq = w.seq + n := by
    intro n
    induction n with
    | zero => simp [CtrlShmWriter.writeN]
    | succ m ih =>
      simp only [CtrlShmWriter.writeN, hstate]
      simp [ih]
      omega
  refine ⟨hstate w, ?_, rfl, hseq, ?_⟩
  · intro hs
    simp [CtrlShmWriter.write, hs]
  · intro m n hmn
    rw [hseq, hseq]
    omega

/-- A connected control writer with the default fields (floats modelled at
type `Nat` for the witness; `write` performs no arithmetic on them). -/
def cCtrl : CtrlShmWriter Nat :=
  { name := "/uc3d_ctrl", shm := some (), seq := 0, pause := 0, dt_scale := 1,
    cam_pos := (0, 0, 0), cam_look := (0, 0, 1), cam_up := (0, 1, 0),
    debug_flags := 0 }

/-- Witness for `ctrl_write_spec` on `cCtrl`. -/
theorem ctrl_write_spec_witness :
    (cCtrl.write).2.seq = 1 ∧
    (cCtrl.write).1 = .ok
      { start := 0, length := 56,
        record := { seq := 1, pause := 0, dt_scale := 1, cam_pos := (0, 0, 0),
                    cam_look := (0, 0, 1), cam_up := (0, 1, 0),
                    debug_flags := 0 } } ∧
    (cCtrl.writeN 3).seq = 3 := by
  have h := ctrl_write_spec Nat cCtrl
  refine ⟨?_, h.2.1 rfl, ?_⟩
  · rw [h.1]
    rfl
  · rw [h.2.2.2.1 3]
    rfl
